import Mathlib

/-!
Verification of the credential resolution and refresh engine of the
droid2api gateway.  The definitions below are a shallow embedding of the
JavaScript source: the token store / dashboard state module
(`src/unnamed/part_002`, referred to as `state.js` since `src/auth.js`
imports these names from `./state.js`) and the auth module
(`src/auth.js`).

Conventions of the embedding:
* JavaScript `null`/`undefined` string fields become `Option String`;
  JavaScript string truthiness (`if (s)`) becomes `truthy`, which is
  `false` exactly on `none` and `some ""`.
* Module-level mutable variables become explicit state records threaded
  through the functions (`TokenStore`, `AuthState`, `AuthStatus`).
* A thrown JavaScript `Error` becomes the `Except` error channel; since
  JS mutations performed before a `throw` survive the throw, every
  fallible function also returns the post-call state alongside the
  `Except` value.
* The network exchange performed by `refreshApiKey` is a parameter
  (`ExchangeOutcome`); the field `fetchCount` of `AuthState` is an
  instrumentation counter incremented exactly where the source sends the
  POST request, so theorems can state how many exchanges were performed.
* Filesystem writes become an explicit effect list (`FsOp`).
-/

namespace Droid2api

/-- JS `String.prototype.trim()` on a Lean string. -/
def jsTrim (s : String) : String :=
  ⟨((s.data.dropWhile Char.isWhitespace).reverse.dropWhile Char.isWhitespace).reverse⟩

/-- JS `str.split(sep)` on character lists: `"".split(' ')` gives `[""]`,
separators at the ends produce empty fragments. -/
def splitCharsOn (sep : Char) : List Char → List (List Char)
  | [] => [[]]
  | c :: cs =>
    let r := splitCharsOn sep cs
    if c = sep then [] :: r
    else
      match r with
      | [] => [[c]]
      | g :: gs => (c :: g) :: gs

/-- JS `str.split(' ')`. -/
def jsSplitSpace (s : String) : List String :=
  (splitCharsOn ' ' s.data).map (fun cs => ⟨cs⟩)

/-- JS truthiness of a nullable string: `null`/`undefined` and `""` are falsy. -/
def truthy : Option String → Bool
  | none => false
  | some s => !(s == "")

/-- JS `s || null`: coerce an empty string to `null`. -/
def strOrNull (s : String) : Option String :=
  if s = "" then none else some s

/-! ## Token store data model (state.js) -/

/-- One stored credential record (`{id, label, value, readOnly}` in state.js). -/
structure TokenRecord where
  id : String
  label : String
  value : String
  readOnly : Bool
  deriving DecidableEq, Repr

/-- The two record kinds; the dashboard layer only ever passes the strings
`'factory'` or `'refresh'` for the `type` argument, modelled as this closed type. -/
inductive TokenKind where
  | factory
  | refresh
  deriving DecidableEq, Repr

/-- The persisted token store (`tokenStore` module variable in state.js). -/
structure TokenStore where
  factoryKeys : List TokenRecord
  refreshTokens : List TokenRecord
  activeFactoryKeyId : Option String
  activeRefreshTokenId : Option String
  deriving DecidableEq, Repr

/-- `const collection = type === 'factory' ? tokenStore.factoryKeys : tokenStore.refreshTokens`. -/
def TokenStore.coll (s : TokenStore) : TokenKind → List TokenRecord
  | .factory => s.factoryKeys
  | .refresh => s.refreshTokens

/-- The active-id pointer for a kind. -/
def TokenStore.activeId (s : TokenStore) : TokenKind → Option String
  | .factory => s.activeFactoryKeyId
  | .refresh => s.activeRefreshTokenId

/-- Replace the collection of one kind. -/
def TokenStore.setColl (s : TokenStore) (k : TokenKind) (l : List TokenRecord) : TokenStore :=
  match k with
  | .factory => { s with factoryKeys := l }
  | .refresh => { s with refreshTokens := l }

/-- Replace the active-id pointer of one kind. -/
def TokenStore.setActive (s : TokenStore) (k : TokenKind) (a : Option String) : TokenStore :=
  match k with
  | .factory => { s with activeFactoryKeyId := a }
  | .refresh => { s with activeRefreshTokenId := a }

/-- The store the module starts from (empty collections, no active ids). -/
def initialTokenStore : TokenStore :=
  { factoryKeys := [], refreshTokens := [], activeFactoryKeyId := none,
    activeRefreshTokenId := none }

/-- `maskToken` from state.js: `'N/A'` for a falsy value, the value itself when
its length is at most 8, otherwise `first4...last4`. -/
def maskToken (value : String) : String :=
  if value = "" then "N/A"
  else if value.length ≤ 8 then value
  else value.take 4 ++ "..." ++ value.takeRight 4

/-- `maskToken` applied to a nullable value (state.js also returns `'N/A'` for
`null`/`undefined`). -/
def maskTokenOpt : Option String → String
  | none => "N/A"
  | some s => maskToken s

/-- `` `${type === 'factory' ? 'Factory' : 'Refresh'} Token` `` -/
def defaultLabel : TokenKind → String
  | .factory => "Factory Token"
  | .refresh => "Refresh Token"

/-- The in-place mutation `ensureToken` performs on a found duplicate record:
`if (readOnly) { existing.readOnly = true; if (label) existing.label = label; }`. -/
def mergeRecord (readOnly : Bool) (label : Option String) (r : TokenRecord) : TokenRecord :=
  if readOnly then
    { r with readOnly := true,
             label := if truthy label then label.getD r.label else r.label }
  else r

/-- Apply `f` to the first record whose `value` field equals `v` (the record
`collection.find(...)` returns), leaving the rest of the list unchanged. -/
def updateFirstByValue (v : String) (f : TokenRecord → TokenRecord) :
    List TokenRecord → List TokenRecord
  | [] => []
  | r :: rs => if r.value = v then f r :: rs else r :: updateFirstByValue v f rs

/-- Apply `f` to the first record whose `id` field equals `i`. -/
def updateFirstById (i : String) (f : TokenRecord → TokenRecord) :
    List TokenRecord → List TokenRecord
  | [] => []
  | r :: rs => if r.id = i then f r :: rs else r :: updateFirstById i f rs

/-- `ensureToken(type, value, label, readOnly)` from state.js.  The id of a
freshly created record is generated from the clock and a random suffix in the
source; it is a parameter `freshId` here. -/
def ensureToken (kind : TokenKind) (value0 : String) (label : Option String)
    (readOnly : Bool) (freshId : String) (s : TokenStore) : TokenStore :=
  let value := jsTrim value0
  if value = "" then s
  else
    match (s.coll kind).find? (fun r => r.value == value) with
    | some existing =>
      let s := s.setColl kind (updateFirstByValue value (mergeRecord readOnly label) (s.coll kind))
      if truthy (s.activeId kind) then s else s.setActive kind (some existing.id)
    | none =>
      let tok : TokenRecord :=
        { id := freshId,
          label := if truthy label then label.getD (defaultLabel kind) else defaultLabel kind,
          value := value,
          readOnly := readOnly }
      let s := s.setColl kind (s.coll kind ++ [tok])
      if truthy (s.activeId kind) then s else s.setActive kind (some tok.id)

/-! ## Persistence (state.js `persistStore`) -/

/-- One filesystem effect. -/
inductive FsOp where
  | write (path : String) (content : String)
  | rename (src : String) (dst : String)
  deriving DecidableEq, Repr

/-- The configured store path (default `data/token-store.json` under the
working directory). -/
def storePath : String := "data/token-store.json"

/-- A deterministic rendering of a record, standing for its JSON serialization. -/
def serializeRecord (r : TokenRecord) : String :=
  "(id=" ++ r.id ++ ";label=" ++ r.label ++ ";value=" ++ r.value ++
    ";readOnly=" ++ (if r.readOnly then "true" else "false") ++ ")"

/-- A deterministic rendering of an optional id. -/
def serializeOptId : Option String → String
  | none => "null"
  | some i => i

/-- Rendering of the whole store, standing for `JSON.stringify(tokenStore, null, 2)`. -/
def serializeStore (s : TokenStore) : String :=
  "(factoryKeys=[" ++ String.intercalate ";" (s.factoryKeys.map serializeRecord) ++
    "];refreshTokens=[" ++ String.intercalate ";" (s.refreshTokens.map serializeRecord) ++
    "];activeFactoryKeyId=" ++ serializeOptId s.activeFactoryKeyId ++
    ";activeRefreshTokenId=" ++ serializeOptId s.activeRefreshTokenId ++ ")"

/-- `persistStore()` from state.js as the filesystem effects it performs:
a single `fs.writeFileSync(STORE_PATH, JSON.stringify(tokenStore, null, 2))`. -/
def persistStore (s : TokenStore) : List FsOp :=
  [FsOp.write storePath (serializeStore s)]

/-! ## Snapshot (state.js `sanitizeToken` / `getTokenStoreSnapshot`) -/

/-- A record as exposed by the snapshot: secret replaced by its masked form. -/
structure SanitizedToken where
  id : String
  label : String
  snippet : String
  readOnly : Bool
  deriving DecidableEq, Repr

/-- The value `getTokenStoreSnapshot()` returns. -/
structure StoreSnapshot where
  factoryKeys : List SanitizedToken
  refreshTokens : List SanitizedToken
  activeFactoryKeyId : Option String
  activeRefreshTokenId : Option String
  deriving DecidableEq, Repr

/-- `sanitizeToken` from state.js. -/
def sanitizeToken (t : TokenRecord) : SanitizedToken :=
  { id := t.id, label := t.label, snippet := maskToken t.value, readOnly := t.readOnly }

/-- `getTokenStoreSnapshot()` from state.js. -/
def getTokenStoreSnapshot (s : TokenStore) : StoreSnapshot :=
  { factoryKeys := s.factoryKeys.map sanitizeToken,
    refreshTokens := s.refreshTokens.map sanitizeToken,
    activeFactoryKeyId := s.activeFactoryKeyId,
    activeRefreshTokenId := s.activeRefreshTokenId }

/-- The snapshot collection of a kind, mirroring `TokenStore.coll`. -/
def StoreSnapshot.coll (s : StoreSnapshot) : TokenKind → List SanitizedToken
  | .factory => s.factoryKeys
  | .refresh => s.refreshTokens

/-! ## Store operations (state.js `addToken` / `removeToken` / `activateToken`) -/

/-- `addToken(type, value, label)` from state.js: `ensureToken` with
`readOnly = false`, then a synchronous persist, then the snapshot is returned.
The result carries the new store, the filesystem effects, and the returned
snapshot. -/
def addToken (kind : TokenKind) (value : String) (label : Option String)
    (freshId : String) (s : TokenStore) : TokenStore × List FsOp × StoreSnapshot :=
  let s := ensureToken kind value label false freshId s
  (s, persistStore s, getTokenStoreSnapshot s)

/-- `collection.findIndex(...)` + `collection.splice(index, 1)`: remove the first
record with the given id, returning it and the remaining list. -/
def removeFirstById (i : String) : List TokenRecord → Option (TokenRecord × List TokenRecord)
  | [] => none
  | r :: rs =>
    if r.id = i then some (r, rs)
    else
      match removeFirstById i rs with
      | none => none
      | some (t, rest) => some (t, r :: rest)

/-- `removeToken(type, id)` from state.js.  Throws `'Token not found'` when no
record matches and `'Cannot remove read-only token'` for a read-only record;
on success the record is spliced out, the active pointer is reassigned to
`collection[0]?.id || null` when the removed record was active, and the store
is persisted. -/
def removeToken (kind : TokenKind) (i : String) (s : TokenStore) :
    Except String (TokenStore × List FsOp) :=
  match removeFirstById i (s.coll kind) with
  | none => .error "Token not found"
  | some (t, rest) =>
    if t.readOnly then .error "Cannot remove read-only token"
    else if (s.setColl kind rest).activeId kind == some i then
      .ok ((s.setColl kind rest).setActive kind
             (match rest.head? with
              | some h => strOrNull h.id
              | none => none),
           persistStore ((s.setColl kind rest).setActive kind
             (match rest.head? with
              | some h => strOrNull h.id
              | none => none)))
    else
      .ok (s.setColl kind rest, persistStore (s.setColl kind rest))

/-- `activateToken(type, id)` from state.js: throws `'Token not found'` unless a
record with the id exists, otherwise sets the active pointer and persists. -/
def activateToken (kind : TokenKind) (i : String) (s : TokenStore) :
    Except String (TokenStore × List FsOp) :=
  if (s.coll kind).any (fun t => t.id == i) then
    .ok (s.setActive kind (some i), persistStore (s.setActive kind (some i)))
  else .error "Token not found"

/-- `updateTokenValue(type, id, value)` from state.js: throws `'Token not found'`
unless a record with the id exists, otherwise overwrites its `value` and persists. -/
def updateTokenValue (kind : TokenKind) (i : String) (v : String) (s : TokenStore) :
    Except String (TokenStore × List FsOp) :=
  if (s.coll kind).any (fun t => t.id == i) then
    .ok (s.setColl kind (updateFirstById i (fun r => { r with value := v }) (s.coll kind)),
         persistStore (s.setColl kind (updateFirstById i (fun r => { r with value := v }) (s.coll kind))))
  else .error "Token not found"

/-- `getActiveFactoryKey()` from state.js. -/
def getActiveFactoryKey (s : TokenStore) : Option TokenRecord :=
  if truthy s.activeFactoryKeyId then
    s.factoryKeys.find? (fun t => t.id == s.activeFactoryKeyId.getD "")
  else none

/-- `getActiveRefreshToken()` from state.js. -/
def getActiveRefreshToken (s : TokenStore) : Option TokenRecord :=
  if truthy s.activeRefreshTokenId then
    s.refreshTokens.find? (fun t => t.id == s.activeRefreshTokenId.getD "")
  else none

/-! ## Request log (state.js `recordRequestLog` / `getRecentLogs`) -/

/-- `MAX_LOGS` from state.js. -/
def MAX_LOGS : Nat := 100

/-- A normalized request-log entry as stored in `requestLogs`. -/
structure LogEntry where
  timestamp : String
  method : String
  path : String
  status : Nat
  durationMs : Nat
  clientIp : String
  tokenSource : String
  tokenSnippet : String
  deriving DecidableEq, Repr

/-- The entry as handed to `recordRequestLog` before normalization (the fields
the source defaults may be absent or empty). -/
structure RawLogEntry where
  timestamp : Option String
  method : String
  path : String
  status : Nat
  durationMs : Nat
  clientIp : String
  tokenSource : Option String
  tokenSnippet : Option String
  deriving DecidableEq, Repr

/-- The normalization `recordRequestLog` performs:
`entry.timestamp || new Date().toISOString()`, `entry.tokenSource || 'none'`,
`entry.tokenSnippet ? entry.tokenSnippet : 'N/A'`.  `nowIso` stands for the
clock reading. -/
def normalizeLogEntry (nowIso : String) (e : RawLogEntry) : LogEntry :=
  { timestamp := if truthy e.timestamp then e.timestamp.getD "" else nowIso,
    method := e.method,
    path := e.path,
    status := e.status,
    durationMs := e.durationMs,
    clientIp := e.clientIp,
    tokenSource := if truthy e.tokenSource then e.tokenSource.getD "" else "none",
    tokenSnippet := if truthy e.tokenSnippet then e.tokenSnippet.getD "" else "N/A" }

/-- `recordRequestLog(entry)` from state.js: push the normalized entry, then
`if (requestLogs.length > MAX_LOGS) requestLogs = requestLogs.slice(-MAX_LOGS)`. -/
def recordRequestLog (logs : List LogEntry) (nowIso : String) (e : RawLogEntry) :
    List LogEntry :=
  let logs := logs ++ [normalizeLogEntry nowIso e]
  if MAX_LOGS < logs.length then logs.drop (logs.length - MAX_LOGS) else logs

/-- JS `arr.slice(-n)`: the last `n` elements; `slice(-0)` is `slice(0)`, the
whole array. -/
def jsSliceLast (l : List LogEntry) (n : Nat) : List LogEntry :=
  if n = 0 then l else l.drop (l.length - n)

/-- `getRecentLogs(limit)` from state.js: `requestLogs.slice(-limit).reverse()`. -/
def getRecentLogs (logs : List LogEntry) (limit : Nat) : List LogEntry :=
  (jsSliceLast logs limit).reverse

/-! ## Auth module (src/auth.js) -/

/-- `REFRESH_INTERVAL_HOURS` expressed in milliseconds: `6` hours. -/
def REFRESH_INTERVAL_MS : Nat := 6 * 60 * 60 * 1000

/-- The module-level mutable variables of auth.js bundled into a record.
`fetchCount` is instrumentation: it counts the POST exchange requests sent. -/
structure AuthState where
  currentApiKey : Option String
  lastRefreshTime : Option Nat
  cachedRefreshTokenId : Option String
  cachedRefreshTokenValue : Option String
  fetchCount : Nat
  deriving DecidableEq, Repr

/-- The `authStatus` record of state.js (mutated through `updateAuthStatus`). -/
structure AuthStatus where
  authTokenConfigured : Bool
  lastSource : String
  lastUsedAt : Option String
  lastRefreshAt : Option String
  lastRefreshStatus : Option String
  lastRefreshError : Option String
  activeAccessTokenSnippet : Option String
  lastClientTokenSnippet : Option String
  deriving DecidableEq, Repr

/-- The initial `authStatus` value of state.js. -/
def initialAuthStatus : AuthStatus :=
  { authTokenConfigured := false, lastSource := "none", lastUsedAt := none,
    lastRefreshAt := none, lastRefreshStatus := none, lastRefreshError := none,
    activeAccessTokenSnippet := none, lastClientTokenSnippet := none }

/-- The initial auth module state (all cache variables `null`). -/
def initialAuthState : AuthState :=
  { currentApiKey := none, lastRefreshTime := none, cachedRefreshTokenId := none,
    cachedRefreshTokenValue := none, fetchCount := 0 }

/-- The combined mutable state the auth functions read and write. -/
structure Env where
  store : TokenStore
  auth : AuthState
  status : AuthStatus
  deriving DecidableEq, Repr

/-- A thrown JS `Error`: its message and the optional `status` property the
source attaches to some of them. -/
structure JsError where
  message : String
  status : Option Nat
  deriving DecidableEq, Repr

/-- A parsed authorization header. -/
structure ParsedAuth where
  scheme : Option String
  token : String
  deriving DecidableEq, Repr

/-- `parseAuthHeader(headerValue)` from auth.js: `null` for a falsy header;
a single fragment is a bare token; otherwise the first fragment is the scheme
and the rest (re-joined on spaces, then trimmed) is the token. -/
def parseAuthHeader (headerValue : Option String) : Option ParsedAuth :=
  match headerValue with
  | none => none
  | some h =>
    if h = "" then none
    else
      match jsSplitSpace h with
      | [t] => some { scheme := none, token := jsTrim t }
      | scheme :: rest => some { scheme := some scheme, token := jsTrim (String.intercalate " " rest) }
      | [] => none

/-- `isAuthorizedForServerTokens(clientAuthorization)` from auth.js.
`authToken` models the module constant `AUTH_TOKEN` (trimmed env value or null). -/
def isAuthorizedForServerTokens (authToken : Option String)
    (clientAuthorization : Option String) : Bool :=
  if !truthy authToken then false
  else
    match parseAuthHeader clientAuthorization with
    | none => false
    | some parsed => parsed.token == authToken.getD ""

/-- `shouldRefresh()` from auth.js: refresh when there is no last refresh time
(`0` is falsy in JS) or at least six hours have elapsed. -/
def shouldRefresh (now : Nat) (lastRefreshTime : Option Nat) : Bool :=
  match lastRefreshTime with
  | none => true
  | some t => if t = 0 then true else decide (REFRESH_INTERVAL_MS ≤ now - t)

/-- `syncRefreshTokenCache()` from auth.js: clears everything when no active
refresh token exists; re-keys the cache and clears the cached access token when
the active record's id or secret differs from the cached identity. -/
def syncRefreshTokenCache (env : Env) : Option TokenRecord × Env :=
  match getActiveRefreshToken env.store with
  | none =>
    (none,
     { env with auth := { env.auth with
                           cachedRefreshTokenId := none
                           cachedRefreshTokenValue := none
                           currentApiKey := none
                           lastRefreshTime := none } })
  | some activeRefresh =>
    if env.auth.cachedRefreshTokenId ≠ some activeRefresh.id ∨
        env.auth.cachedRefreshTokenValue ≠ some activeRefresh.value then
      (some activeRefresh,
       { env with
           auth := { env.auth with
                      cachedRefreshTokenId := some activeRefresh.id
                      cachedRefreshTokenValue := some activeRefresh.value
                      currentApiKey := none
                      lastRefreshTime := none }
           status := { env.status with activeAccessTokenSnippet := none } })
    else (some activeRefresh, env)

/-- The outcome of the OAuth refresh-grant POST to the provider endpoint:
either an HTTP 200 whose JSON body may carry `access_token` and a rotated
`refresh_token`, or a failure (non-200 response or transport error) whose
message is what `refreshApiKey` throws. -/
inductive ExchangeOutcome where
  | success (accessToken : Option String) (rotatedRefreshToken : Option String)
  | failure (message : String)
  deriving DecidableEq, Repr

/-- The refresh-token rotation step inside `refreshApiKey`'s try block:
`if (data.refresh_token && cachedRefreshTokenId) { cachedRefreshTokenValue = ...;
updateTokenValue(...); activateToken(...); }`.  Errors thrown by the store
operations propagate (with the mutations made so far kept). -/
def rotateRefreshToken (rotTok : Option String) (env : Env) :
    Except String Env × Env :=
  if truthy rotTok && truthy env.auth.cachedRefreshTokenId then
    let rt := rotTok.getD ""
    let cid := env.auth.cachedRefreshTokenId.getD ""
    let env := { env with auth := { env.auth with cachedRefreshTokenValue := some rt } }
    match updateTokenValue .refresh cid rt env.store with
    | .error m => (.error m, env)
    | .ok (store, _) =>
      let env := { env with store := store }
      match activateToken .refresh cid env.store with
      | .error m => (.error m, env)
      | .ok (store, _) =>
        let env := { env with store := store }
        (.ok env, env)
  else (.ok env, env)

/-- `refreshApiKey()` from auth.js.  Returns the JS return value
(`currentApiKey`, possibly `undefined`) or the thrown error, together with the
state after the call; the error branch performs the catch block's
`updateAuthStatus` before re-throwing. -/
def refreshApiKey (exchange : ExchangeOutcome) (now : Nat) (nowIso : String)
    (env : Env) : Except JsError (Option String) × Env :=
  if !truthy env.auth.cachedRefreshTokenValue then
    (.error { message := "No refresh token available", status := some 401 }, env)
  else
    let env := { env with status := { env.status with
                                       lastRefreshStatus := some "in-progress"
                                       lastRefreshError := none } }
    let env := { env with auth := { env.auth with fetchCount := env.auth.fetchCount + 1 } }
    match exchange with
    | .failure msg =>
      let env := { env with status := { env.status with
                                         lastRefreshAt := some nowIso
                                         lastRefreshStatus := some "error"
                                         lastRefreshError := some msg } }
      (.error { message := msg, status := none }, env)
    | .success accessTok rotTok =>
      let env := { env with auth := { env.auth with
                                       currentApiKey := accessTok
                                       lastRefreshTime := some now } }
      match rotateRefreshToken rotTok env with
      | (.error m, env) =>
        let env := { env with status := { env.status with
                                           lastRefreshAt := some nowIso
                                           lastRefreshStatus := some "error"
                                           lastRefreshError := some m } }
        (.error { message := m, status := none }, env)
      | (.ok _, env) =>
        let env := { env with status := { env.status with
                                           lastRefreshAt := some nowIso
                                           lastRefreshStatus := some "success"
                                           lastRefreshError := none
                                           activeAccessTokenSnippet :=
                                             some (maskTokenOpt env.auth.currentApiKey) } }
        (.ok env.auth.currentApiKey, env)

/-- `ensureAccessTokenValid()` from auth.js. -/
def ensureAccessTokenValid (exchange : ExchangeOutcome) (now : Nat) (nowIso : String)
    (env : Env) : Except JsError String × Env :=
  if !truthy env.auth.cachedRefreshTokenValue then
    (.error { message := "No refresh token configured", status := some 401 }, env)
  else
    let step : Except JsError Unit × Env :=
      if !truthy env.auth.currentApiKey || shouldRefresh now env.auth.lastRefreshTime then
        match refreshApiKey exchange now nowIso env with
        | (.error e, env) => (.error e, env)
        | (.ok _, env) => (.ok (), env)
      else (.ok (), env)
    match step with
    | (.error e, env) => (.error e, env)
    | (.ok _, env) =>
      if truthy env.auth.currentApiKey then
        (.ok (env.auth.currentApiKey.getD ""), env)
      else
        (.error { message := "Refresh token did not return access token", status := some 500 }, env)

/-- The 503 error message thrown when the caller is authorized for server
tokens but neither an active factory key nor an active refresh token exists. -/
def noServerCredMsg : String :=
  "Server-managed tokens are not configured. Please add a FACTORY_API_KEY or refresh token."

/-- The 401 error message thrown when no authorization is presented at all. -/
def noAuthMsg : String :=
  "No authorization available. Please configure tokens or provide Authorization header."

/-- The value `getApiKey` resolves to. -/
structure ResolveResult where
  header : String
  source : String
  tokenSnippet : String
  deriving DecidableEq, Repr

/-- `getApiKey(clientAuthorization)` from auth.js — the per-request credential
resolution.  `authToken` models the module constant `AUTH_TOKEN`; `exchange`,
`now` and `nowIso` stand for the network and the clock. -/
def getApiKey (authToken : Option String) (clientAuthorization : Option String)
    (exchange : ExchangeOutcome) (now : Nat) (nowIso : String) (env : Env) :
    Except JsError ResolveResult × Env :=
  let authorizedForServerTokens := isAuthorizedForServerTokens authToken clientAuthorization
  if authorizedForServerTokens then
    match getActiveFactoryKey env.store with
    | some activeFactory =>
      let snippet := maskToken activeFactory.value
      let env := { env with status := { env.status with
                                         lastSource := "factory"
                                         lastUsedAt := some nowIso
                                         activeAccessTokenSnippet := some snippet } }
      (.ok { header := "Bearer " ++ activeFactory.value, source := "factory"
             tokenSnippet := snippet }, env)
    | none =>
      match syncRefreshTokenCache env with
      | (some _, env) =>
        match ensureAccessTokenValid exchange now nowIso env with
        | (.error e, env) => (.error e, env)
        | (.ok _, env) =>
          let key := env.auth.currentApiKey.getD ""
          let snippet := maskTokenOpt env.auth.currentApiKey
          let env := { env with status := { env.status with
                                             lastSource := "refresh"
                                             lastUsedAt := some nowIso
                                             activeAccessTokenSnippet := some snippet } }
          (.ok { header := "Bearer " ++ key, source := "refresh"
                 tokenSnippet := snippet }, env)
      | (none, env) =>
        (.error { message := noServerCredMsg, status := some 503 }, env)
  else if truthy clientAuthorization then
    let snippet :=
      match parseAuthHeader clientAuthorization with
      | some parsed => maskToken parsed.token
      | none => "N/A"
    let env := { env with status := { env.status with
                                       lastSource := "client"
                                       lastUsedAt := some nowIso
                                       lastClientTokenSnippet := some snippet } }
    (.ok { header := clientAuthorization.getD "", source := "client"
           tokenSnippet := snippet }, env)
  else
    (.error { message := noAuthMsg, status := some 401 }, env)

/-! ## Interleaving model of concurrent `ensureAccessTokenValid` callers

auth.js runs on a single thread with cooperative suspension at `await`
boundaries.  `ensureAccessTokenValid`/`refreshApiKey` execute synchronously
from the `!currentApiKey || shouldRefresh()` check up to `await fetch(...)`,
where control can pass to another request; the response handling up to the
assignments `currentApiKey = data.access_token; lastRefreshTime = Date.now()`
is again synchronous.  The model below gives each concurrent caller two atomic
steps separated at exactly that suspension point.  There is no lock, pending
promise handle, or any other serialization primitive anywhere in auth.js, so
nothing in the model guards the check-then-fetch sequence. -/

/-- Where a concurrent caller of `ensureAccessTokenValid` stands. -/
inductive CallerPhase where
  | ready
  | awaitingFetch
  | done
  deriving DecidableEq, Repr

/-- Shared auth-module state plus two callers' positions.  `exchangesStarted`
counts fetches sent; `observedMissing1/2` record whether the caller saw no
cached access token at its check. -/
structure ConcState where
  currentApiKey : Option String
  lastRefreshTime : Option Nat
  exchangesStarted : Nat
  caller1 : CallerPhase
  caller2 : CallerPhase
  observedMissing1 : Bool
  observedMissing2 : Bool
  deriving DecidableEq, Repr

/-- Both callers at the start, cache empty (no token yet, never refreshed). -/
def initialConcState : ConcState :=
  { currentApiKey := none, lastRefreshTime := none, exchangesStarted := 0,
    caller1 := .ready, caller2 := .ready,
    observedMissing1 := false, observedMissing2 := false }

/-- Which caller the event loop resumes next. -/
inductive SchedStep where
  | run1
  | run2
  deriving DecidableEq, Repr

/-- One atomic segment of a caller, faithful to the auth.js control flow:
from `.ready`, the caller evaluates `!currentApiKey || shouldRefresh()`; if
refresh is needed it reaches `await fetch` (one exchange started) and
suspends, otherwise it returns the cached token; from `.awaitingFetch`, the
response arrives and the caller stores the fetched access token. -/
def concStep (now : Nat) (fetchedToken : String) (s : ConcState) :
    SchedStep → ConcState
  | .run1 =>
    match s.caller1 with
    | .ready =>
      if !truthy s.currentApiKey || shouldRefresh now s.lastRefreshTime then
        { s with caller1 := .awaitingFetch
                 exchangesStarted := s.exchangesStarted + 1
                 observedMissing1 := !truthy s.currentApiKey }
      else { s with caller1 := .done }
    | .awaitingFetch =>
      { s with caller1 := .done
               currentApiKey := some fetchedToken
               lastRefreshTime := some now }
    | .done => s
  | .run2 =>
    match s.caller2 with
    | .ready =>
      if !truthy s.currentApiKey || shouldRefresh now s.lastRefreshTime then
        { s with caller2 := .awaitingFetch
                 exchangesStarted := s.exchangesStarted + 1
                 observedMissing2 := !truthy s.currentApiKey }
      else { s with caller2 := .done }
    | .awaitingFetch =>
      { s with caller2 := .done
               currentApiKey := some fetchedToken
               lastRefreshTime := some now }
    | .done => s

/-- Run a schedule from the initial state. -/
def runSchedule (now : Nat) (fetchedToken : String) (sched : List SchedStep) : ConcState :=
  sched.foldl (concStep now fetchedToken) initialConcState

/-! ## Administrative operation sequences -/

/-- One administrative mutation on the token store (the dashboard surface
validates the kind and then passes through to state.js). -/
inductive StoreOp where
  | add (kind : TokenKind) (value : String) (label : Option String) (freshId : String)
  | remove (kind : TokenKind) (i : String)
  | activate (kind : TokenKind) (i : String)
  deriving DecidableEq, Repr

/-- Apply one operation; the dashboard route catches thrown errors and leaves
the store as it was (state.js throws before any mutation in those cases). -/
def applyOp (s : TokenStore) : StoreOp → TokenStore
  | .add k v l fid => (addToken k v l fid s).1
  | .remove k i =>
    match removeToken k i s with
    | .ok (s2, _) => s2
    | .error _ => s
  | .activate k i =>
    match activateToken k i s with
    | .ok (s2, _) => s2
    | .error _ => s

/-- Apply a sequence of administrative operations. -/
def applyOps (ops : List StoreOp) (s : TokenStore) : TokenStore :=
  ops.foldl applyOp s

/-- The active-id invariant of the data model: a non-null active id references
an existing record of its kind. -/
def activeIdOk (s : TokenStore) : Prop :=
  ∀ k : TokenKind, ∀ i : String, s.activeId k = some i → ∃ r ∈ s.coll k, r.id = i

/-- Modelled from the spec: the write-then-replace persistence pattern §4.1/§5
require of `persist()` — a write to a temporary location distinct from the
store path followed by a rename onto the store path.  (The code's own
`persistStore` is `Droid2api.persistStore` above; this definition exists to be
compared against it.) -/
def atomicWriteThenReplace (ops : List FsOp) : Prop :=
  ∃ tmp content, tmp ≠ storePath ∧
    ops = [FsOp.write tmp content, FsOp.rename tmp storePath]

/-! ## Concrete fixtures used by counterexamples and witnesses -/

/-- A store holding one active factory key. -/
def fkStore : TokenStore :=
  { factoryKeys := [{ id := "f1", label := "L", value := "fk_abcdefgh1234", readOnly := false }],
    refreshTokens := [], activeFactoryKeyId := some "f1", activeRefreshTokenId := none }

/-- A store holding one active refresh token and no factory key. -/
def rStore : TokenStore :=
  { factoryKeys := [],
    refreshTokens := [{ id := "r1", label := "R", value := "rsecret", readOnly := false }],
    activeFactoryKeyId := none, activeRefreshTokenId := some "r1" }

/-- Auth module state where the cache is in sync with `rStore`'s active refresh
token, a previously fetched access token is cached, and the last refresh was at
time 1000. -/
def staleAuthState : AuthState :=
  { currentApiKey := some "oldaccesstoken", lastRefreshTime := some 1000,
    cachedRefreshTokenId := some "r1", cachedRefreshTokenValue := some "rsecret",
    fetchCount := 0 }

/-- Environment for the stale-cache scenario. -/
def staleEnv : Env :=
  { store := rStore, auth := staleAuthState, status := initialAuthStatus }

/-- Auth module state whose cached refresh-token identity differs from
`rStore`'s active record. -/
def mismatchAuthState : AuthState :=
  { currentApiKey := some "oldaccesstoken", lastRefreshTime := some 1000,
    cachedRefreshTokenId := some "r0", cachedRefreshTokenValue := some "oldsecret",
    fetchCount := 0 }

/-- Environment for the rotated-identity scenario. -/
def mismatchEnv : Env :=
  { store := rStore, auth := mismatchAuthState, status := initialAuthStatus }

/-- Two removable factory records. -/
def recA : TokenRecord := { id := "a", label := "A", value := "va", readOnly := false }

/-- Second removable factory record. -/
def recB : TokenRecord := { id := "b", label := "B", value := "vb", readOnly := false }

/-- A store whose active factory record (`recA`) is about to be removed. -/
def c6Store : TokenStore :=
  { factoryKeys := [recA, recB], refreshTokens := [],
    activeFactoryKeyId := some "a", activeRefreshTokenId := none }

/-- The store after removing `recA`: the pointer moves to the first remaining
record. -/
def c6StoreAfter : TokenStore :=
  { factoryKeys := [recB], refreshTokens := [],
    activeFactoryKeyId := some "b", activeRefreshTokenId := none }

/-- A sample sequence of administrative operations. -/
def sampleOps : List StoreOp :=
  [.add .factory "key1" none "f1", .add .refresh "ref1" (some "lbl") "r9",
   .activate .factory "f1", .remove .factory "f1"]

/-- A sample normalized log entry. -/
def sampleLog : LogEntry :=
  { timestamp := "t", method := "GET", path := "/x", status := 200, durationMs := 1,
    clientIp := "ip", tokenSource := "none", tokenSnippet := "N/A" }

/-- A sample raw log entry. -/
def sampleRaw : RawLogEntry :=
  { timestamp := none, method := "POST", path := "/y", status := 503, durationMs := 2,
    clientIp := "ip2", tokenSource := some "client", tokenSnippet := some "abcd...wxyz" }

/-! ## Helper lemmas -/

theorem truthy_some_of_ne {s : String} (h : s ≠ "") : truthy (some s) = true := by
  simp [truthy, h]

theorem coll_setColl (s : TokenStore) (k : TokenKind) (l : List TokenRecord) :
    (s.setColl k l).coll k = l := by
  cases k <;> rfl

theorem coll_setColl_of_ne (s : TokenStore) {k k' : TokenKind} (l : List TokenRecord)
    (h : k ≠ k') : (s.setColl k l).coll k' = s.coll k' := by
  cases k <;> cases k' <;> first | rfl | exact absurd rfl h

theorem activeId_setColl (s : TokenStore) (k : TokenKind) (l : List TokenRecord)
    (k' : TokenKind) : (s.setColl k l).activeId k' = s.activeId k' := by
  cases k <;> cases k' <;> rfl

theorem coll_setActive (s : TokenStore) (k : TokenKind) (a : Option String)
    (k' : TokenKind) : (s.setActive k a).coll k' = s.coll k' := by
  cases k <;> cases k' <;> rfl

theorem activeId_setActive (s : TokenStore) (k : TokenKind) (a : Option String) :
    (s.setActive k a).activeId k = a := by
  cases k <;> rfl

theorem activeId_setActive_of_ne (s : TokenStore) {k k' : TokenKind} (a : Option String)
    (h : k ≠ k') : (s.setActive k a).activeId k' = s.activeId k' := by
  cases k <;> cases k' <;> first | rfl | exact absurd rfl h

theorem mergeRecord_id (ro : Bool) (label : Option String) (r : TokenRecord) :
    (mergeRecord ro label r).id = r.id := by
  unfold mergeRecord
  split <;> rfl

theorem mergeRecord_value (ro : Bool) (label : Option String) (r : TokenRecord) :
    (mergeRecord ro label r).value = r.value := by
  unfold mergeRecord
  split <;> rfl

theorem updateFirstByValue_map_id {f : TokenRecord → TokenRecord}
    (hf : ∀ r, (f r).id = r.id) (v : String) (l : List TokenRecord) :
    (updateFirstByValue v f l).map (fun r => r.id) = l.map (fun r => r.id) := by
  induction l with
  | nil => rfl
  | cons r rs ih =>
    by_cases h : r.value = v <;> simp [updateFirstByValue, h, hf, ih]

theorem updateFirstByValue_map_value {f : TokenRecord → TokenRecord}
    (hf : ∀ r, (f r).value = r.value) (v : String) (l : List TokenRecord) :
    (updateFirstByValue v f l).map (fun r => r.value) = l.map (fun r => r.value) := by
  induction l with
  | nil => rfl
  | cons r rs ih =>
    by_cases h : r.value = v <;> simp [updateFirstByValue, h, hf, ih]

theorem updateFirstByValue_length (f : TokenRecord → TokenRecord) (v : String)
    (l : List TokenRecord) :
    (updateFirstByValue v f l).length = l.length := by
  induction l with
  | nil => rfl
  | cons r rs ih =>
    by_cases h : r.value = v <;> simp [updateFirstByValue, h, ih]

theorem mem_updateFirstByValue_of_find {f : TokenRecord → TokenRecord} {v : String}
    {l : List TokenRecord} {ex : TokenRecord}
    (h : l.find? (fun r => r.value == v) = some ex) :
    f ex ∈ updateFirstByValue v f l := by
  induction l with
  | nil => simp at h
  | cons r rs ih =>
    by_cases hr : r.value = v
    · rw [List.find?_cons_of_pos] at h
      · simp only [Option.some_inj] at h
        subst h
        simp [updateFirstByValue, hr]
      · simpa using hr
    · rw [List.find?_cons_of_neg] at h
      · simp only [updateFirstByValue, if_neg hr]
        exact List.mem_cons_of_mem _ (ih h)
      · simpa using hr

theorem find_eq_some_of_exists {v : String} {l : List TokenRecord}
    (h : ∃ r ∈ l, r.value = v) :
    ∃ ex, l.find? (fun r => r.value == v) = some ex := by
  cases hf : l.find? (fun r => r.value == v) with
  | some ex => exact ⟨ex, rfl⟩
  | none =>
    obtain ⟨r, hr, hrv⟩ := h
    have := List.find?_eq_none.mp hf r hr
    simp [hrv] at this

theorem removeFirstById_mem_of_ne {i : String} {l rest : List TokenRecord}
    {t : TokenRecord} (h : removeFirstById i l = some (t, rest)) {j : String}
    (hj : j ≠ i) (hex : ∃ r ∈ l, r.id = j) : ∃ r ∈ rest, r.id = j := by
  induction l generalizing rest t with
  | nil => simp [removeFirstById] at h
  | cons r rs ih =>
    obtain ⟨x, hx, hxj⟩ := hex
    by_cases hr : r.id = i
    · simp only [removeFirstById, if_pos hr, Option.some_inj, Prod.mk.injEq] at h
      obtain ⟨-, hrest⟩ := h
      subst hrest
      rcases List.mem_cons.mp hx with hxr | hxrs
      · subst hxr
        exact absurd (hxj ▸ hr) (by simpa [hxj] using hj)
      · exact ⟨x, hxrs, hxj⟩
    · simp only [removeFirstById, if_neg hr] at h
      cases hrm : removeFirstById i rs with
      | none => rw [hrm] at h; simp at h
      | some p =>
        obtain ⟨t0, rest0⟩ := p
        rw [hrm] at h
        simp only [Option.some_inj, Prod.mk.injEq] at h
        obtain ⟨-, hrest⟩ := h
        subst hrest
        rcases List.mem_cons.mp hx with hxr | hxrs
        · subst hxr
          exact ⟨x, List.mem_cons_self _ _, hxj⟩
        · obtain ⟨y, hy, hyj⟩ := ih hrm ⟨x, hxrs, hxj⟩
          exact ⟨y, List.mem_cons_of_mem _ hy, hyj⟩

/-- After `ensureToken`, the collection of any other kind is unchanged. -/
theorem ensureToken_coll_of_ne (v : String) (label : Option String) (ro : Bool)
    (fid : String) (s : TokenStore) {k k' : TokenKind} (h : k ≠ k') :
    (ensureToken k v label ro fid s).coll k' = s.coll k' := by
  by_cases hv : jsTrim v = ""
  · simp [ensureToken, hv]
  · simp only [ensureToken, hv, if_false]
    cases hf : (s.coll k).find? (fun r => r.value == jsTrim v) with
    | some ex =>
      simp only [hf, activeId_setColl]
      by_cases hact : truthy (s.activeId k) = true
      · rw [if_pos hact, coll_setColl_of_ne _ _ h]
      · rw [if_neg hact, coll_setActive, coll_setColl_of_ne _ _ h]
    | none =>
      simp only [hf, activeId_setColl]
      by_cases hact : truthy (s.activeId k) = true
      · rw [if_pos hact, coll_setColl_of_ne _ _ h]
      · rw [if_neg hact, coll_setActive, coll_setColl_of_ne _ _ h]

/-- After `ensureToken`, the active pointer of any other kind is unchanged. -/
theorem ensureToken_activeId_of_ne (v : String) (label : Option String) (ro : Bool)
    (fid : String) (s : TokenStore) {k k' : TokenKind} (h : k ≠ k') :
    (ensureToken k v label ro fid s).activeId k' = s.activeId k' := by
  by_cases hv : jsTrim v = ""
  · simp [ensureToken, hv]
  · simp only [ensureToken, hv, if_false]
    cases hf : (s.coll k).find? (fun r => r.value == jsTrim v) with
    | some ex =>
      simp only [hf, activeId_setColl]
      by_cases hact : truthy (s.activeId k) = true
      · rw [if_pos hact, activeId_setColl]
      · rw [if_neg hact, activeId_setActive_of_ne _ _ h, activeId_setColl]
    | none =>
      simp only [hf, activeId_setColl]
      by_cases hact : truthy (s.activeId k) = true
      · rw [if_pos hact, activeId_setColl]
      · rw [if_neg hact, activeId_setActive_of_ne _ _ h, activeId_setColl]

/-- `ensureToken` never loses an id from its kind's collection. -/
theorem ensureToken_id_superset (k : TokenKind) (v : String) (label : Option String)
    (ro : Bool) (fid : String) (s : TokenStore) {j : String}
    (h : ∃ r ∈ s.coll k, r.id = j) :
    ∃ r ∈ (ensureToken k v label ro fid s).coll k, r.id = j := by
  have hmap : ∀ l : List TokenRecord,
      (∃ r ∈ l, r.id = j) ↔ j ∈ l.map (fun r => r.id) := by
    intro l
    simp only [List.mem_map]
  by_cases hv : jsTrim v = ""
  · simpa [ensureToken, hv]
  · simp only [ensureToken, hv, if_false]
    cases hf : (s.coll k).find? (fun r => r.value == jsTrim v) with
    | some ex =>
      have hup := updateFirstByValue_map_id (mergeRecord_id ro label) (jsTrim v) (s.coll k)
      simp only [hf, activeId_setColl]
      by_cases hact : truthy (s.activeId k) = true
      · rw [if_pos hact, coll_setColl, hmap, hup, ← hmap]
        exact h
      · rw [if_neg hact, coll_setActive, coll_setColl, hmap, hup, ← hmap]
        exact h
    | none =>
      obtain ⟨r, hr, hrj⟩ := h
      simp only [hf, activeId_setColl]
      by_cases hact : truthy (s.activeId k) = true
      · rw [if_pos hact, coll_setColl]
        exact ⟨r, List.mem_append_left _ hr, hrj⟩
      · rw [if_neg hact, coll_setActive, coll_setColl]
        exact ⟨r, List.mem_append_left _ hr, hrj⟩

/-- After `ensureToken`, the kind's active pointer is either unchanged or
references a record of the new collection. -/
theorem ensureToken_active_spec (k : TokenKind) (v : String) (label : Option String)
    (ro : Bool) (fid : String) (s : TokenStore) :
    (ensureToken k v label ro fid s).activeId k = s.activeId k ∨
    ∃ j0, (ensureToken k v label ro fid s).activeId k = some j0 ∧
      ∃ r ∈ (ensureToken k v label ro fid s).coll k, r.id = j0 := by
  by_cases hv : jsTrim v = ""
  · left
    simp [ensureToken, hv]
  · simp only [ensureToken, hv, if_false]
    cases hf : (s.coll k).find? (fun r => r.value == jsTrim v) with
    | some ex =>
      simp only [hf, activeId_setColl]
      by_cases hact : truthy (s.activeId k) = true
      · left
        rw [if_pos hact, activeId_setColl]
      · right
        refine ⟨ex.id, ?_, ?_⟩
        · rw [if_neg hact, activeId_setActive]
        · rw [if_neg hact, coll_setActive, coll_setColl]
          exact ⟨mergeRecord ro label ex, mem_updateFirstByValue_of_find hf,
            mergeRecord_id ro label ex⟩
    | none =>
      simp only [hf, activeId_setColl]
      by_cases hact : truthy (s.activeId k) = true
      · left
        rw [if_pos hact, activeId_setColl]
      · right
        refine ⟨fid, ?_, ?_⟩
        · rw [if_neg hact, activeId_setActive]
        · rw [if_neg hact, coll_setActive, coll_setColl]
          exact ⟨_, List.mem_append_right _ (List.mem_singleton_self _), rfl⟩

/-- `ensureToken` preserves the active-id invariant. -/
theorem ensureToken_activeIdOk {s : TokenStore} (hs : activeIdOk s) (k : TokenKind)
    (v : String) (label : Option String) (ro : Bool) (fid : String) :
    activeIdOk (ensureToken k v label ro fid s) := by
  intro k' j hj
  by_cases hk : k = k'
  · subst hk
    rcases ensureToken_active_spec k v label ro fid s with hsame | ⟨j0, hj0, r, hr, hrid⟩
    · rw [hsame] at hj
      exact ensureToken_id_superset k v label ro fid s (hs k j hj)
    · rw [hj0] at hj
      injection hj with hjj
      subst hjj
      exact ⟨r, hr, hrid⟩
  · rw [ensureToken_activeId_of_ne _ _ _ _ _ hk] at hj
    rw [ensureToken_coll_of_ne _ _ _ _ _ hk]
    exact hs k' j hj

/-- `removeToken` preserves the active-id invariant. -/
theorem removeToken_activeIdOk {k : TokenKind} {i : String} {s s2 : TokenStore}
    {fx : List FsOp} (h : removeToken k i s = .ok (s2, fx)) (hs : activeIdOk s) :
    activeIdOk s2 := by
  unfold removeToken at h
  cases hrm : removeFirstById i (s.coll k) with
  | none =>
    rw [hrm] at h
    exact absurd h (by simp)
  | some p =>
    obtain ⟨t, rest⟩ := p
    rw [hrm] at h
    simp only [] at h
    by_cases hro : t.readOnly = true
    · rw [if_pos hro] at h
      exact absurd h (by simp)
    · rw [if_neg hro] at h
      by_cases hb : ((s.setColl k rest).activeId k == some i) = true
      · rw [if_pos hb] at h
        simp only [Except.ok.injEq, Prod.mk.injEq] at h
        obtain ⟨h2, -⟩ := h
        subst h2
        intro k' j hj
        by_cases hk : k = k'
        · subst hk
          rw [activeId_setActive] at hj
          rw [coll_setActive, coll_setColl]
          cases hh : rest.head? with
          | none =>
            simp only [hh] at hj
            exact absurd hj (by simp)
          | some hd =>
            simp only [hh, strOrNull] at hj
            by_cases hid : hd.id = ""
            · rw [if_pos hid] at hj
              exact absurd hj (by simp)
            · rw [if_neg hid] at hj
              injection hj with hjj
              exact ⟨hd, List.mem_of_mem_head? (hh ▸ rfl), hjj⟩
        · rw [activeId_setActive_of_ne _ _ hk, activeId_setColl] at hj
          rw [coll_setActive, coll_setColl_of_ne _ _ hk]
          exact hs k' j hj
      · rw [if_neg hb] at h
        simp only [Except.ok.injEq, Prod.mk.injEq] at h
        obtain ⟨h2, -⟩ := h
        subst h2
        intro k' j hj
        by_cases hk : k = k'
        · subst hk
          rw [activeId_setColl] at hj hb
          rw [coll_setColl]
          have hji : j ≠ i := by
            intro hcontra
            subst hcontra
            rw [hj] at hb
            simp at hb
          exact removeFirstById_mem_of_ne hrm hji (hs k j hj)
        · rw [activeId_setColl] at hj
          rw [coll_setColl_of_ne _ _ hk]
          exact hs k' j hj

/-- `activateToken` preserves the active-id invariant. -/
theorem activateToken_activeIdOk {k : TokenKind} {i : String} {s s2 : TokenStore}
    {fx : List FsOp} (h : activateToken k i s = .ok (s2, fx)) (hs : activeIdOk s) :
    activeIdOk s2 := by
  unfold activateToken at h
  by_cases hany : (s.coll k).any (fun t => t.id == i) = true
  · rw [if_pos hany] at h
    simp only [Except.ok.injEq, Prod.mk.injEq] at h
    obtain ⟨h2, -⟩ := h
    subst h2
    intro k' j hj
    by_cases hk : k = k'
    · subst hk
      rw [activeId_setActive] at hj
      injection hj with hji
      subst hji
      rw [coll_setActive]
      obtain ⟨r, hr, hri⟩ := List.any_eq_true.mp hany
      exact ⟨r, hr, by simpa using hri⟩
    · rw [activeId_setActive_of_ne _ _ hk] at hj
      rw [coll_setActive]
      exact hs k' j hj
  · rw [if_neg hany] at h
    exact absurd h (by simp)

/-- Each administrative operation preserves the active-id invariant. -/
theorem applyOp_activeIdOk {s : TokenStore} (hs : activeIdOk s) (op : StoreOp) :
    activeIdOk (applyOp s op) := by
  cases op with
  | add k v l fid => exact ensureToken_activeIdOk hs k v l false fid
  | remove k i =>
    simp only [applyOp]
    cases hrm : removeToken k i s with
    | ok p =>
      obtain ⟨s2, fx⟩ := p
      exact removeToken_activeIdOk hrm hs
    | error e => exact hs
  | activate k i =>
    simp only [applyOp]
    cases hrm : activateToken k i s with
    | ok p =>
      obtain ⟨s2, fx⟩ := p
      exact activateToken_activeIdOk hrm hs
    | error e => exact hs

/-- Sequences of administrative operations preserve the active-id invariant. -/
theorem applyOps_activeIdOk {s : TokenStore} (hs : activeIdOk s) (ops : List StoreOp) :
    activeIdOk (applyOps ops s) := by
  induction ops generalizing s with
  | nil => exact hs
  | cons op ops ih => exact ih (applyOp_activeIdOk hs op)

/-- The empty store satisfies the active-id invariant. -/
theorem initialTokenStore_activeIdOk : activeIdOk initialTokenStore := by
  intro k j hj
  cases k <;> simp [initialTokenStore, TokenStore.activeId] at hj

/-- A truthy optional string is `some` of a nonempty string. -/
theorem truthy_eq_some {o : Option String} (h : truthy o = true) :
    o = some (o.getD "") ∧ o.getD "" ≠ "" := by
  cases o with
  | none => simp [truthy] at h
  | some s =>
    refine ⟨rfl, ?_⟩
    simpa [truthy] using h

/-- When `ensureAccessTokenValid` succeeds, the returned key is the (nonempty)
cached access token of the post-call state. -/
theorem ensure_ok_currentApiKey {exchange : ExchangeOutcome} {now : Nat}
    {nowIso : String} {env env2 : Env} {k : String}
    (h : ensureAccessTokenValid exchange now nowIso env = (.ok k, env2)) :
    env2.auth.currentApiKey = some k ∧ k ≠ "" := by
  simp only [ensureAccessTokenValid] at h
  by_cases h1 : (!truthy env.auth.cachedRefreshTokenValue) = true
  · rw [if_pos h1] at h
    exact absurd h (by simp)
  · rw [if_neg h1] at h
    by_cases hc : (!truthy env.auth.currentApiKey || shouldRefresh now env.auth.lastRefreshTime) = true
    · rw [if_pos hc] at h
      rcases hrf : refreshApiKey exchange now nowIso env with ⟨res, env1⟩
      rw [hrf] at h
      cases res with
      | error e =>
        simp only [] at h
        exact absurd h (by simp)
      | ok v =>
        simp only [] at h
        by_cases ht : truthy env1.auth.currentApiKey = true
        · rw [if_pos ht] at h
          simp only [Prod.mk.injEq, Except.ok.injEq] at h
          obtain ⟨hk, henv⟩ := h
          subst hk
          subst henv
          obtain ⟨hsome, hne⟩ := truthy_eq_some ht
          exact ⟨hsome, hne⟩
        · rw [if_neg ht] at h
          exact absurd h (by simp)
    · rw [if_neg hc] at h
      simp only [] at h
      by_cases ht : truthy env.auth.currentApiKey = true
      · rw [if_pos ht] at h
        simp only [Prod.mk.injEq, Except.ok.injEq] at h
        obtain ⟨hk, henv⟩ := h
        subst hk
        subst henv
        obtain ⟨hsome, hne⟩ := truthy_eq_some ht
        exact ⟨hsome, hne⟩
      · rw [if_neg ht] at h
        exact absurd h (by simp)

/-- One `recordRequestLog` call keeps the log within capacity. -/
theorem recordRequestLog_length_le {logs : List LogEntry} (h : logs.length ≤ MAX_LOGS)
    (nowIso : String) (e : RawLogEntry) :
    (recordRequestLog logs nowIso e).length ≤ MAX_LOGS := by
  unfold recordRequestLog
  by_cases hl : MAX_LOGS < (logs ++ [normalizeLogEntry nowIso e]).length
  · rw [if_pos hl]
    simp only [List.length_drop]
    omega
  · rw [if_neg hl]
    omega

/-- Any sequence of `recordRequestLog` calls starting from the empty log stays
within capacity. -/
theorem foldl_recordRequestLog_length (entries : List (String × RawLogEntry)) :
    (entries.foldl (fun acc p => recordRequestLog acc p.1 p.2) []).length ≤ MAX_LOGS := by
  have hgen : ∀ (es : List (String × RawLogEntry)) (acc : List LogEntry),
      acc.length ≤ MAX_LOGS →
      (es.foldl (fun acc p => recordRequestLog acc p.1 p.2) acc).length ≤ MAX_LOGS := by
    intro es
    induction es with
    | nil =>
      intro acc h
      simpa using h
    | cons p ps ih =>
      intro acc h
      exact ih _ (recordRequestLog_length_le h p.1 p.2)
  exact hgen entries [] (by simp [MAX_LOGS])

/-- On a full log, `recordRequestLog` drops exactly the oldest entry. -/
theorem recordRequestLog_full {logs : List LogEntry} (h : logs.length = MAX_LOGS)
    (nowIso : String) (e : RawLogEntry) :
    recordRequestLog logs nowIso e = logs.drop 1 ++ [normalizeLogEntry nowIso e] := by
  unfold recordRequestLog
  rw [if_pos (by simp [h])]
  have hlen : (logs ++ [normalizeLogEntry nowIso e]).length - MAX_LOGS = 1 := by
    simp [h]
  rw [hlen, List.drop_append_of_le_length (by simp [h, MAX_LOGS])]

/-- `getRecentLogs` with a positive limit: at most `limit` entries, the most
recent suffix reversed. -/
theorem getRecentLogs_spec (logs : List LogEntry) {limit : Nat} (h : 1 ≤ limit) :
    (getRecentLogs logs limit).length ≤ limit ∧
    getRecentLogs logs limit = (logs.drop (logs.length - limit)).reverse := by
  have hne : ¬limit = 0 := by omega
  constructor
  · simp only [getRecentLogs, jsSliceLast, hne, if_false, List.length_reverse,
      List.length_drop]
    omega
  · simp [getRecentLogs, jsSliceLast, hne]

/-- For a secret that does not trim to empty, the collection `ensureToken`
leaves behind is the merge-update on a duplicate and the push of a fresh
record otherwise. -/
theorem ensureToken_coll_eq (k : TokenKind) (v : String) (label : Option String)
    (ro : Bool) (fid : String) (s : TokenStore) (hv : jsTrim v ≠ "") :
    (ensureToken k v label ro fid s).coll k =
      match (s.coll k).find? (fun r => r.value == jsTrim v) with
      | some _ => updateFirstByValue (jsTrim v) (mergeRecord ro label) (s.coll k)
      | none => s.coll k ++
          [{ id := fid,
             label := if truthy label then label.getD (defaultLabel k) else defaultLabel k,
             value := jsTrim v, readOnly := ro }] := by
  simp only [ensureToken, hv, if_false]
  cases hf : (s.coll k).find? (fun r => r.value == jsTrim v) <;>
    simp only [hf, activeId_setColl] <;>
    (by_cases hact : truthy (s.activeId k) = true
     · rw [if_pos hact, coll_setColl]
     · rw [if_neg hact, coll_setActive, coll_setColl])

/-! ## Claim theorems -/

/-- C1: the specification requires refresh exchanges to be single-flight per
active refresh-token identity, the second concurrent caller awaiting the
in-flight attempt through an explicit serialization primitive.  auth.js has no
such primitive: under the interleaving in which both callers evaluate
`!currentApiKey || shouldRefresh()` before either fetch resolves, both observe
the missing cached access token and two refresh exchanges are started, not at
most one. -/
theorem c1_concurrent_refresh_two_exchanges :
    (runSchedule 5000 "tok" [.run1, .run2, .run1, .run2]).observedMissing1 = true ∧
    (runSchedule 5000 "tok" [.run1, .run2, .run1, .run2]).observedMissing2 = true ∧
    (runSchedule 5000 "tok" [.run1, .run2, .run1, .run2]).exchangesStarted = 2 ∧
    ¬(runSchedule 5000 "tok" [.run1, .run2, .run1, .run2]).exchangesStarted ≤ 1 := by
  decide

/-- C5 counterexample: `persistStore`'s effect list is a single direct write to
the store path and therefore never matches the write-to-temporary-then-replace
pattern the claim asserts. -/
theorem c5_persist_not_atomic_counterexample :
    ¬atomicWriteThenReplace (persistStore initialTokenStore) := by
  rintro ⟨tmp, content, hne, heq⟩
  simp [persistStore] at heq

/-- C5 amended: every `persist()` writes the serialized structure directly to
the store file path as one write, with no temporary location and no replace
step (so a crash mid-write can leave a partial file). -/
theorem c5_persist_single_direct_write (s : TokenStore) :
    persistStore s = [FsOp.write storePath (serializeStore s)] := rfl

/-- C9: `snapshot()` masks each record's secret with `maskToken`: a (nonempty)
secret of length at most 8 round-trips unmasked, and a longer secret renders as
exactly the first four characters, the literal dots, and the last four. -/
theorem c9_snapshot_masking (s : TokenStore) (k : TokenKind) (t : TokenRecord)
    (hmem : t ∈ s.coll k) (hne : t.value ≠ "") :
    ∃ e ∈ (getTokenStoreSnapshot s).coll k,
      e.id = t.id ∧
      (t.value.length ≤ 8 → e.snippet = t.value) ∧
      (8 < t.value.length →
        e.snippet = t.value.take 4 ++ "..." ++ t.value.takeRight 4) := by
  refine ⟨sanitizeToken t, ?_, rfl, ?_, ?_⟩
  · cases k <;> exact List.mem_map_of_mem sanitizeToken hmem
  · intro hle
    simp [sanitizeToken, maskToken, hne, hle]
  · intro hgt
    simp [sanitizeToken, maskToken, hne, Nat.not_le.mpr hgt]

/-- Witness for C9 at a concrete record of each length regime. -/
theorem c9_snapshot_masking_witness :
    (∃ e ∈ (getTokenStoreSnapshot fkStore).coll .factory,
      e.id = "f1" ∧
      (("fk_abcdefgh1234" : String).length ≤ 8 → e.snippet = "fk_abcdefgh1234") ∧
      (8 < ("fk_abcdefgh1234" : String).length →
        e.snippet = ("fk_abcdefgh1234" : String).take 4 ++ "..." ++
          ("fk_abcdefgh1234" : String).takeRight 4)) := by
  exact c9_snapshot_masking fkStore .factory
    { id := "f1", label := "L", value := "fk_abcdefgh1234", readOnly := false }
    (by simp [fkStore, TokenStore.coll]) (by decide)

/-- C10 counterexample: JS `slice(-0)` is `slice(0)`, so `getRecentLogs` with
`limit = 0` returns every stored entry rather than at most zero. -/
theorem c10_limit_zero_counterexample :
    ¬(getRecentLogs (recordRequestLog [] "t0" sampleRaw) 0).length ≤ 0 := by
  decide

/-- C10 amended: the log never exceeds 100 entries over any call sequence, a
call on a full log drops the oldest entry, and for every positive limit
`getRecentLogs` returns at most `limit` entries, the newest first (the reversed
most-recent suffix); only `limit = 0` returns everything. -/
theorem c10_log_capacity_and_recent_logs :
    (∀ entries : List (String × RawLogEntry),
        (entries.foldl (fun acc p => recordRequestLog acc p.1 p.2) []).length ≤
          MAX_LOGS) ∧
    (∀ (logs : List LogEntry) (nowIso : String) (e : RawLogEntry),
        logs.length = MAX_LOGS →
        recordRequestLog logs nowIso e = logs.drop 1 ++ [normalizeLogEntry nowIso e]) ∧
    (∀ (logs : List LogEntry) (limit : Nat), 1 ≤ limit →
        (getRecentLogs logs limit).length ≤ limit ∧
        getRecentLogs logs limit = (logs.drop (logs.length - limit)).reverse) :=
  ⟨foldl_recordRequestLog_length,
   fun _ nowIso e h => recordRequestLog_full h nowIso e,
   fun logs _ h => getRecentLogs_spec logs h⟩

/-- Witness for C10 on a full log and a small positive limit. -/
theorem c10_log_capacity_witness :
    recordRequestLog (List.replicate 100 sampleLog) "t" sampleRaw =
      (List.replicate 100 sampleLog).drop 1 ++ [normalizeLogEntry "t" sampleRaw] ∧
    (1 ≤ 5 ∧ (getRecentLogs [sampleLog] 5).length ≤ 5) := by
  refine ⟨?_, ⟨by omega, ?_⟩⟩
  · exact c10_log_capacity_and_recent_logs.2.1 _ "t" sampleRaw (by simp [MAX_LOGS])
  · exact (c10_log_capacity_and_recent_logs.2.2 [sampleLog] 5 (by omega)).1

/-- After `ensureToken` with a secret not trimming to empty, a record carrying
that (trimmed) secret is present in the kind's collection. -/
theorem ensureToken_mem_value (k : TokenKind) (v : String) (label : Option String)
    (ro : Bool) (fid : String) (s : TokenStore) (hv : jsTrim v ≠ "") :
    ∃ r ∈ (ensureToken k v label ro fid s).coll k, r.value = jsTrim v := by
  rw [ensureToken_coll_eq k v label ro fid s hv]
  cases hf : (s.coll k).find? (fun r => r.value == jsTrim v) with
  | some ex =>
    refine ⟨mergeRecord ro label ex, mem_updateFirstByValue_of_find hf, ?_⟩
    rw [mergeRecord_value]
    simpa using List.find?_some hf
  | none =>
    exact ⟨_, List.mem_append_right _ (List.mem_singleton_self _), rfl⟩

/-- When the kind has no active selection, `ensureToken` with a secret not
trimming to empty activates the inserted or merged record. -/
theorem ensureToken_activates (k : TokenKind) (v : String) (label : Option String)
    (ro : Bool) (fid : String) (s : TokenStore) (hv : jsTrim v ≠ "")
    (hact : truthy (s.activeId k) = false) :
    ∃ r ∈ (ensureToken k v label ro fid s).coll k,
      (ensureToken k v label ro fid s).activeId k = some r.id ∧
      r.value = jsTrim v := by
  simp only [ensureToken, hv, if_false]
  cases hf : (s.coll k).find? (fun r => r.value == jsTrim v) with
  | some ex =>
    simp only [hf, activeId_setColl]
    rw [if_neg (by simp [hact]), activeId_setActive, coll_setActive, coll_setColl]
    refine ⟨mergeRecord ro label ex, mem_updateFirstByValue_of_find hf, ?_, ?_⟩
    · rw [mergeRecord_id]
    · rw [mergeRecord_value]
      simpa using List.find?_some hf
  | none =>
    simp only [hf, activeId_setColl]
    rw [if_neg (by simp [hact]), activeId_setActive, coll_setActive, coll_setColl]
    exact ⟨_, List.mem_append_right _ (List.mem_singleton_self _), rfl, rfl⟩

/-- C4 counterexample: `addToken` with a secret that is empty after trimming
does not fail with any error — `ensureToken` silently returns, the unchanged
store is persisted, and the snapshot is returned exactly as on success. -/
theorem c4_empty_secret_counterexample :
    addToken .factory "   " none "id9" initialTokenStore =
      (initialTokenStore, persistStore initialTokenStore,
       getTokenStoreSnapshot initialTokenStore) := by
  decide

/-- C4 amended: when the secret is empty after trimming, `add` silently leaves
the store unchanged (still persisting and returning the snapshot) instead of
failing; otherwise it inserts or merges a record carrying the trimmed secret,
activates it when the kind had no active selection, and persists the new store
synchronously. -/
theorem c4_add_token_spec (kind : TokenKind) (value : String) (label : Option String)
    (freshId : String) (s : TokenStore) :
    (jsTrim value = "" →
       addToken kind value label freshId s =
         (s, persistStore s, getTokenStoreSnapshot s)) ∧
    (jsTrim value ≠ "" →
       (∃ r ∈ (addToken kind value label freshId s).1.coll kind,
          r.value = jsTrim value) ∧
       (truthy (s.activeId kind) = false →
          ∃ r ∈ (addToken kind value label freshId s).1.coll kind,
            (addToken kind value label freshId s).1.activeId kind = some r.id ∧
            r.value = jsTrim value) ∧
       (addToken kind value label freshId s).2.1 =
         persistStore (addToken kind value label freshId s).1) := by
  constructor
  · intro hv
    simp [addToken, ensureToken, hv]
  · intro hv
    refine ⟨?_, ?_, rfl⟩
    · exact ensureToken_mem_value kind value label false freshId s hv
    · intro hact
      exact ensureToken_activates kind value label false freshId s hv hact

/-- Witness for C4: adding a fresh secret to the empty store inserts and
activates it, and the empty-secret branch applies to a whitespace secret. -/
theorem c4_add_token_spec_witness :
    (jsTrim "  secret9  " ≠ "" ∧
      ∃ r ∈ (addToken .refresh "  secret9  " none "rid1" initialTokenStore).1.coll .refresh,
        r.value = jsTrim "  secret9  ") ∧
    (jsTrim " " = "" ∧
      addToken .factory " " none "rid2" initialTokenStore =
        (initialTokenStore, persistStore initialTokenStore,
         getTokenStoreSnapshot initialTokenStore)) := by
  refine ⟨⟨by decide, ?_⟩, ⟨by decide, ?_⟩⟩
  · exact ((c4_add_token_spec .refresh "  secret9  " none "rid1"
      initialTokenStore).2 (by decide)).1
  · exact (c4_add_token_spec .factory " " none "rid2" initialTokenStore).1 (by decide)

/-- C7: inserting a secret already present in a kind (after trimming) never
grows that kind's collection — the secrets and ids are untouched, only record
metadata can change — and `ensureToken` preserves distinctness of secrets
within a kind. -/
theorem c7_duplicate_secret_merge (kind : TokenKind) (value : String)
    (label : Option String) (ro : Bool) (freshId : String) (s : TokenStore) :
    ((∃ r ∈ s.coll kind, r.value = jsTrim value) →
       ((ensureToken kind value label ro freshId s).coll kind).length =
         (s.coll kind).length ∧
       ((ensureToken kind value label ro freshId s).coll kind).map (fun r => r.value) =
         (s.coll kind).map (fun r => r.value) ∧
       ((ensureToken kind value label ro freshId s).coll kind).map (fun r => r.id) =
         (s.coll kind).map (fun r => r.id)) ∧
    (((s.coll kind).map (fun r => r.value)).Nodup →
       (((ensureToken kind value label ro freshId s).coll kind).map
          (fun r => r.value)).Nodup) := by
  constructor
  · intro hdup
    by_cases hv : jsTrim value = ""
    · simp [ensureToken, hv]
    · obtain ⟨ex, hf⟩ := find_eq_some_of_exists hdup
      rw [ensureToken_coll_eq kind value label ro freshId s hv, hf]
      exact ⟨updateFirstByValue_length _ _ _,
             updateFirstByValue_map_value (mergeRecord_value ro label) _ _,
             updateFirstByValue_map_id (mergeRecord_id ro label) _ _⟩
  · intro hnd
    by_cases hv : jsTrim value = ""
    · simpa [ensureToken, hv]
    · rw [ensureToken_coll_eq kind value label ro freshId s hv]
      cases hf : (s.coll kind).find? (fun r => r.value == jsTrim value) with
      | some ex =>
        rw [updateFirstByValue_map_value (mergeRecord_value ro label)]
        exact hnd
      | none =>
        rw [List.map_append]
        have hnotmem : jsTrim value ∉ (s.coll kind).map (fun r => r.value) := by
          intro hmem
          obtain ⟨r, hr, hrv⟩ := List.mem_map.mp hmem
          have hn := List.find?_eq_none.mp hf r hr
          simp [hrv] at hn
        simp [List.nodup_append, hnd, hnotmem]

/-- Witness for C7: re-adding the factory secret of `fkStore` keeps its single
record (no growth) and distinct secrets stay distinct. -/
theorem c7_duplicate_secret_merge_witness :
    (∃ r ∈ fkStore.coll .factory, r.value = jsTrim "fk_abcdefgh1234") ∧
    ((ensureToken .factory "fk_abcdefgh1234" (some "NewLabel") true "zz" fkStore).coll
        .factory).length = (fkStore.coll .factory).length ∧
    (((ensureToken .factory "fk_abcdefgh1234" (some "NewLabel") true "zz" fkStore).coll
        .factory).map (fun r => r.value)).Nodup := by
  have hdup : ∃ r ∈ fkStore.coll .factory, r.value = jsTrim "fk_abcdefgh1234" :=
    ⟨{ id := "f1", label := "L", value := "fk_abcdefgh1234", readOnly := false },
     by simp [fkStore, TokenStore.coll], by decide⟩
  refine ⟨hdup, ?_, ?_⟩
  · exact ((c7_duplicate_secret_merge .factory "fk_abcdefgh1234" (some "NewLabel")
      true "zz" fkStore).1 hdup).1
  · exact (c7_duplicate_secret_merge .factory "fk_abcdefgh1234" (some "NewLabel")
      true "zz" fkStore).2 (by decide)

/-- C2 counterexample: with a previously cached valid access token that has
gone stale and an exchange that fails, `resolve` raises the refresh error to
its caller instead of returning the prior cached token (which is, however, not
cleared, and the error is recorded). -/
theorem c2_failed_refresh_counterexample :
    (getApiKey (some "adm") (some "adm") (.failure "boom") 21601000 "t" staleEnv).1 =
      .error { message := "boom", status := none } ∧
    ((getApiKey (some "adm") (some "adm") (.failure "boom") 21601000 "t"
        staleEnv).2).auth.currentApiKey = some "oldaccesstoken" ∧
    ((getApiKey (some "adm") (some "adm") (.failure "boom") 21601000 "t"
        staleEnv).2).status.lastRefreshStatus = some "error" := by
  refine ⟨?_, ?_, ?_⟩ <;> rfl

/-- C2 amended: when a refresh attempt fails while a previously cached valid
access token exists (which happens exactly when that token has gone stale),
the cached token is not cleared and AuthStatus records the error outcome and
message, but the refresh error propagates to `resolve`'s caller instead of the
prior token being returned. -/
theorem c2_failed_refresh_soft_state (store : TokenStore) (st : AuthStatus)
    (r : TokenRecord) (apiKey : String) (t n now : Nat) (msg nowIso : String)
    (authToken clientAuth : Option String)
    (hauth : isAuthorizedForServerTokens authToken clientAuth = true)
    (hfk : getActiveFactoryKey store = none)
    (hr : getActiveRefreshToken store = some r)
    (hkey : apiKey ≠ "") (hrv : r.value ≠ "") (ht : t ≠ 0)
    (hstale : REFRESH_INTERVAL_MS ≤ now - t) :
    getApiKey authToken clientAuth (.failure msg) now nowIso
        { store := store,
          auth := { currentApiKey := some apiKey, lastRefreshTime := some t,
                    cachedRefreshTokenId := some r.id,
                    cachedRefreshTokenValue := some r.value, fetchCount := n },
          status := st } =
      (.error { message := msg, status := none },
       { store := store,
         auth := { currentApiKey := some apiKey, lastRefreshTime := some t,
                   cachedRefreshTokenId := some r.id,
                   cachedRefreshTokenValue := some r.value, fetchCount := n + 1 },
         status := { st with
                      lastRefreshAt := some nowIso
                      lastRefreshStatus := some "error"
                      lastRefreshError := some msg } }) := by
  have hsr : shouldRefresh now (some t) = true := by
    simp [shouldRefresh, ht, hstale]
  simp [getApiKey, syncRefreshTokenCache, ensureAccessTokenValid, refreshApiKey,
    hauth, hfk, hr, hsr, truthy, hkey, hrv]

/-- Witness for C2 at a concrete stale environment with a failing exchange. -/
theorem c2_failed_refresh_soft_state_witness :
    getApiKey (some "adm") (some "adm") (.failure "exchange down") 90000000 "iso"
        { store := rStore,
          auth := { currentApiKey := some "oldaccesstoken", lastRefreshTime := some 1000,
                    cachedRefreshTokenId := some "r1",
                    cachedRefreshTokenValue := some "rsecret", fetchCount := 0 },
          status := initialAuthStatus } =
      (.error { message := "exchange down", status := none },
       { store := rStore,
         auth := { currentApiKey := some "oldaccesstoken", lastRefreshTime := some 1000,
                   cachedRefreshTokenId := some "r1",
                   cachedRefreshTokenValue := some "rsecret", fetchCount := 0 + 1 },
         status := { initialAuthStatus with
                      lastRefreshAt := some "iso"
                      lastRefreshStatus := some "error"
                      lastRefreshError := some "exchange down" } }) := by
  exact c2_failed_refresh_soft_state rStore initialAuthStatus
    { id := "r1", label := "R", value := "rsecret", readOnly := false }
    "oldaccesstoken" 1000 0 90000000 "exchange down" "iso" (some "adm") (some "adm")
    (by decide) (by decide) (by decide) (by decide) (by decide) (by decide) (by decide)

/-- With no presented authorization, the server-token check always fails. -/
theorem isAuthorized_none (authToken : Option String) :
    isAuthorizedForServerTokens authToken none = false := by
  unfold isAuthorizedForServerTokens
  split
  · rfl
  · simp [parseAuthHeader]

/-- C3: the decision order of `resolve`: an exact admin-secret match serves the
active factory key (with no exchange performed) if one exists, else the result
of `ensureAccessTokenValid` as the refresh-derived credential, else the
no-server-credential failure (503); a non-matching nonempty presented
credential passes through unmodified as `source = client`; no presented
authorization fails with the no-authorization error (401). -/
theorem c3_resolve_decision_order (authToken clientAuthorization : Option String)
    (exchange : ExchangeOutcome) (now : Nat) (nowIso : String) (env : Env) :
    (isAuthorizedForServerTokens authToken clientAuthorization = true →
      (∀ f, getActiveFactoryKey env.store = some f →
        (getApiKey authToken clientAuthorization exchange now nowIso env).1 =
          .ok { header := "Bearer " ++ f.value, source := "factory",
                tokenSnippet := maskToken f.value } ∧
        ((getApiKey authToken clientAuthorization exchange now nowIso
            env).2).auth.fetchCount = env.auth.fetchCount) ∧
      (getActiveFactoryKey env.store = none →
        (∀ r env1 k env2, syncRefreshTokenCache env = (some r, env1) →
          ensureAccessTokenValid exchange now nowIso env1 = (.ok k, env2) →
          (getApiKey authToken clientAuthorization exchange now nowIso env).1 =
            .ok { header := "Bearer " ++ k, source := "refresh",
                  tokenSnippet := maskToken k }) ∧
        (∀ r env1 e env2, syncRefreshTokenCache env = (some r, env1) →
          ensureAccessTokenValid exchange now nowIso env1 = (.error e, env2) →
          getApiKey authToken clientAuthorization exchange now nowIso env =
            (.error e, env2)) ∧
        (∀ env1, syncRefreshTokenCache env = (none, env1) →
          (getApiKey authToken clientAuthorization exchange now nowIso env).1 =
            .error { message := noServerCredMsg, status := some 503 }))) ∧
    (isAuthorizedForServerTokens authToken clientAuthorization = false →
      ∀ s, clientAuthorization = some s → s ≠ "" →
        ∃ snip, (getApiKey authToken clientAuthorization exchange now nowIso env).1 =
          .ok { header := s, source := "client", tokenSnippet := snip }) ∧
    (clientAuthorization = none →
      (getApiKey authToken clientAuthorization exchange now nowIso env).1 =
        .error { message := noAuthMsg, status := some 401 }) := by
  refine ⟨?_, ?_, ?_⟩
  · intro hauth
    constructor
    · intro f hf
      simp [getApiKey, hauth, hf]
    · intro hfk
      refine ⟨?_, ?_, ?_⟩
      · intro r env1 k env2 hsync hens
        obtain ⟨hck, hkne⟩ := ensure_ok_currentApiKey hens
        simp [getApiKey, hauth, hfk, hsync, hens, hck, maskTokenOpt]
      · intro r env1 e env2 hsync hens
        simp [getApiKey, hauth, hfk, hsync, hens]
      · intro env1 hsync
        simp [getApiKey, hauth, hfk, hsync]
  · intro hnauth s hcs hsne
    subst hcs
    refine ⟨match parseAuthHeader (some s) with
            | some parsed => maskToken parsed.token
            | none => "N/A", ?_⟩
    simp [getApiKey, hnauth, truthy, hsne]
  · intro hcn
    subst hcn
    simp [getApiKey, isAuthorized_none, truthy]

/-- Witness for C3: the factory scenario of the spec and the no-authorization
scenario, instantiated concretely. -/
theorem c3_resolve_decision_order_witness :
    ((getApiKey (some "s3cr3t") (some "s3cr3t") (.failure "x") 0 "t"
        { store := fkStore, auth := initialAuthState, status := initialAuthStatus }).1 =
      .ok { header := "Bearer " ++ "fk_abcdefgh1234", source := "factory",
            tokenSnippet := maskToken "fk_abcdefgh1234" } ∧
     ((getApiKey (some "s3cr3t") (some "s3cr3t") (.failure "x") 0 "t"
        { store := fkStore, auth := initialAuthState,
          status := initialAuthStatus }).2).auth.fetchCount =
       ({ store := fkStore, auth := initialAuthState,
          status := initialAuthStatus } : Env).auth.fetchCount) ∧
    (getApiKey none none (.failure "x") 0 "t"
        { store := initialTokenStore, auth := initialAuthState,
          status := initialAuthStatus }).1 =
      .error { message := noAuthMsg, status := some 401 } := by
  constructor
  · exact ((c3_resolve_decision_order (some "s3cr3t") (some "s3cr3t") (.failure "x")
      0 "t" { store := fkStore, auth := initialAuthState,
              status := initialAuthStatus }).1 (by decide)).1
      { id := "f1", label := "L", value := "fk_abcdefgh1234", readOnly := false }
      (by decide)
  · exact (c3_resolve_decision_order none none (.failure "x") 0 "t"
      { store := initialTokenStore, auth := initialAuthState,
        status := initialAuthStatus }).2.2 rfl

/-- C8: when the store's active refresh-token identity (id or secret) differs
from the cached identity, `syncRefreshTokenCache` clears the cached access
token and timestamp, and the next `resolve` with the admin secret performs a
fresh exchange (the exchange counter increments) and serves the newly fetched
token rather than the stale cached one. -/
theorem c8_cache_invalidation_fresh_exchange (env : Env) (r : TokenRecord)
    (newTok : String) (authToken clientAuth : Option String) (now : Nat)
    (nowIso : String)
    (hauth : isAuthorizedForServerTokens authToken clientAuth = true)
    (hfk : getActiveFactoryKey env.store = none)
    (hr : getActiveRefreshToken env.store = some r)
    (hmism : env.auth.cachedRefreshTokenId ≠ some r.id ∨
             env.auth.cachedRefreshTokenValue ≠ some r.value)
    (hrv : r.value ≠ "") (hnt : newTok ≠ "") :
    ((syncRefreshTokenCache env).2.auth.currentApiKey = none ∧
     (syncRefreshTokenCache env).2.auth.lastRefreshTime = none) ∧
    (getApiKey authToken clientAuth (.success (some newTok) none) now nowIso env).1 =
      .ok { header := "Bearer " ++ newTok, source := "refresh",
            tokenSnippet := maskToken newTok } ∧
    ((getApiKey authToken clientAuth (.success (some newTok) none) now nowIso
        env).2).auth.fetchCount = env.auth.fetchCount + 1 := by
  constructor
  · unfold syncRefreshTokenCache
    rw [hr]
    simp only []
    rw [if_pos hmism]
    exact ⟨rfl, rfl⟩
  · have hsync : syncRefreshTokenCache env =
        (some r,
         { env with
             auth := { env.auth with
                        cachedRefreshTokenId := some r.id
                        cachedRefreshTokenValue := some r.value
                        currentApiKey := none
                        lastRefreshTime := none }
             status := { env.status with activeAccessTokenSnippet := none } }) := by
      unfold syncRefreshTokenCache
      rw [hr]
      simp only []
      rw [if_pos hmism]
    constructor
    · simp [getApiKey, ensureAccessTokenValid, refreshApiKey, rotateRefreshToken,
        hauth, hfk, hsync, truthy, hrv, hnt, maskTokenOpt]
    · simp [getApiKey, ensureAccessTokenValid, refreshApiKey, rotateRefreshToken,
        hauth, hfk, hsync, truthy, hrv, hnt, maskTokenOpt]

/-- Witness for C8 at a concrete environment whose cached identity differs
from the store's active refresh token. -/
theorem c8_cache_invalidation_witness :
    ((syncRefreshTokenCache mismatchEnv).2.auth.currentApiKey = none ∧
     (syncRefreshTokenCache mismatchEnv).2.auth.lastRefreshTime = none) ∧
    (getApiKey (some "adm") (some "adm") (.success (some "newtok123") none) 1500 "t"
        mismatchEnv).1 =
      .ok { header := "Bearer " ++ "newtok123", source := "refresh",
            tokenSnippet := maskToken "newtok123" } ∧
    ((getApiKey (some "adm") (some "adm") (.success (some "newtok123") none) 1500 "t"
        mismatchEnv).2).auth.fetchCount = mismatchEnv.auth.fetchCount + 1 := by
  exact c8_cache_invalidation_fresh_exchange mismatchEnv
    { id := "r1", label := "R", value := "rsecret", readOnly := false }
    "newtok123" (some "adm") (some "adm") 1500 "t"
    (by decide) (by decide) (by decide) (by decide) (by decide) (by decide)

/-- C6: over every sequence of add/remove/activate operations from the initial
store, a non-null active id references an existing record of its kind; and a
successful removal of the active record reassigns the pointer to the first
remaining record of the kind (its id, with the empty id coerced to null) or to
null when none remains. -/
theorem c6_active_id_invariant :
    (∀ ops : List StoreOp, activeIdOk (applyOps ops initialTokenStore)) ∧
    (∀ (k : TokenKind) (i : String) (s s2 : TokenStore) (fx : List FsOp),
        removeToken k i s = .ok (s2, fx) →
        s.activeId k = some i →
        s2.activeId k =
          (match (s2.coll k).head? with
           | some h => strOrNull h.id
           | none => none)) := by
  constructor
  · intro ops
    exact applyOps_activeIdOk initialTokenStore_activeIdOk ops
  · intro k i s s2 fx h hact
    unfold removeToken at h
    cases hrm : removeFirstById i (s.coll k) with
    | none =>
      rw [hrm] at h
      exact absurd h (by simp)
    | some p =>
      obtain ⟨t, rest⟩ := p
      rw [hrm] at h
      simp only [] at h
      by_cases hro : t.readOnly = true
      · rw [if_pos hro] at h
        exact absurd h (by simp)
      · rw [if_neg hro] at h
        have hb : ((s.setColl k rest).activeId k == some i) = true := by
          rw [activeId_setColl, hact]
          simp
        rw [if_pos hb] at h
        simp only [Except.ok.injEq, Prod.mk.injEq] at h
        obtain ⟨h2, -⟩ := h
        subst h2
        rw [activeId_setActive, coll_setActive, coll_setColl]

/-- Witness for C6: a sample operation sequence satisfies the invariant, and
removing the active record of `c6Store` moves the pointer to the first
remaining record. -/
theorem c6_active_id_invariant_witness :
    activeIdOk (applyOps sampleOps initialTokenStore) ∧
    (removeToken .factory "a" c6Store = .ok (c6StoreAfter, persistStore c6StoreAfter) ∧
     c6Store.activeId .factory = some "a" ∧
     c6StoreAfter.activeId .factory =
       (match (c6StoreAfter.coll .factory).head? with
        | some h => strOrNull h.id
        | none => none)) := by
  refine ⟨c6_active_id_invariant.1 sampleOps, ?_, by decide, ?_⟩
  · rfl
  · exact c6_active_id_invariant.2 .factory "a" c6Store c6StoreAfter
      (persistStore c6StoreAfter) (by rfl) (by decide)

end Droid2api
